import Mathlib

/-!
Verification of the Coverage-Aware Incremental Test Synthesis Pipeline
(universal-tester, `src/universal_tester/core.py` and
`src/universal_tester/detectors/enhanced_import_detector.py`).

The Python code is shallowly embedded: Python strings become `String`
(manipulated through their character lists), the filesystem becomes the
list of existing paths, Python dicts with fixed key sets become
structures, and the external LLM/validator pair becomes an explicit
oracle (a list of per-iteration outcomes).  Python `str.lower()` is
modelled by ASCII `Char.toLower` (all inputs of interest are ASCII
identifiers), and the float ratio comparisons `len(a)/len(b) >= 0.4`
(resp. `>= 0.5`) are modelled by the exact rational comparisons
`10*len(a) >= 4*len(b)` (resp. `2*len(a) >= len(b)`), which agree with
the IEEE double comparison for every string length that can occur.
-/

/-! ### Python string primitives (over the character list) -/

/-- `len(s)` of Python, counted in code points like Lean's `String.length`. -/
def pyLen (s : String) : Nat := s.toList.length

/-- `s.lower()` of Python, restricted to ASCII case mapping. -/
def pyLower (s : String) : String := String.mk (s.toList.map Char.toLower)

/-- `s[n:]` of Python. -/
def pyDrop (s : String) (n : Nat) : String := String.mk (s.toList.drop n)

/-- `s[:-n]` of Python (empty when `n ≥ len(s)`). -/
def pyDropRight (s : String) (n : Nat) : String :=
  String.mk (s.toList.take (s.toList.length - n))

/-- `s.startswith(p)` of Python. -/
def pyStartsWith (s p : String) : Bool := p.toList.isPrefixOf s.toList

/-- `s.endswith(p)` of Python. -/
def pyEndsWith (s p : String) : Bool := p.toList.isSuffixOf s.toList

/-- `needle in hay` of Python (contiguous substring test). -/
def pyIn (needle hay : String) : Bool := decide (List.IsInfix needle.toList hay.toList)

/-- `s.replace('_', '').replace('-', '')` of Python. -/
def pyStripSeparators (s : String) : String :=
  String.mk (s.toList.filter (fun c => c ≠ '_' && c ≠ '-'))

/-- `s.split('.')` of Python. -/
def splitDotAux : List Char → List Char → List String
  | [], acc => [String.mk acc.reverse]
  | c :: cs, acc =>
    if c = '.' then String.mk acc.reverse :: splitDotAux cs []
    else splitDotAux cs (c :: acc)

/-- `imp.split('.')[-1]` of Python: the simple class name of a dotted import. -/
def simpleClassName (imp : String) : String := (splitDotAux imp.toList []).getLastD ""

/-- Lexicographic `a <= b` on strings by code point, as Python compares `str`. -/
def pyStrLe (a b : String) : Bool := leAux a.toList b.toList
  where leAux : List Char → List Char → Bool
    | [], _ => true
    | _ :: _, [] => false
    | a :: as, b :: bs =>
      if a.toNat < b.toNat then true
      else if b.toNat < a.toNat then false
      else leAux as bs

/-- Insertion of a string into a `pyStrLe`-sorted list. -/
def insertLe (x : String) : List String → List String
  | [] => [x]
  | y :: ys => if pyStrLe x y then x :: y :: ys else y :: insertLe x ys

/-- Insertion sort by `pyStrLe`. -/
def sortLe : List String → List String
  | [] => []
  | x :: xs => insertLe x (sortLe xs)

/-- `sorted(list(set(l)))` of Python: the distinct elements in ascending order. -/
def sortDedup (l : List String) : List String := sortLe l.eraseDups

/-! ### `os.path` on POSIX, as used by the versioning code -/

/-- `os.path.basename`: the part after the last `/`. -/
def os_path_basename (p : String) : String :=
  String.mk ((p.toList.reverse.takeWhile (fun c => c ≠ '/')).reverse)

/-- `os.path.dirname`: the part before the last `/`, with trailing slashes
stripped unless the head is all slashes. -/
def os_path_dirname (p : String) : String :=
  let headRev := p.toList.reverse.dropWhile (fun c => c ≠ '/')
  if headRev.isEmpty then ""
  else if headRev.all (fun c => c = '/') then String.mk headRev.reverse
  else String.mk ((headRev.dropWhile (fun c => c = '/')).reverse)

/-- `os.path.join` for two components on POSIX. -/
def os_path_join (a b : String) : String :=
  if pyStartsWith b "/" then b
  else if a = "" then b
  else if pyEndsWith a "/" then a ++ b
  else a ++ "/" ++ b

/-! ### `find_existing_test_files` / `get_next_test_file_name`
(core.py lines 2254–2292 and 2441–2466).  The filesystem is modelled as
the list `fs` of paths for which `os.path.exists` is true. -/

/-- The `counter = 2; while counter <= 50` scan of `find_existing_test_files`:
collect contiguously numbered versions, stopping at the first missing
number or after `Test50`.  The loop runs at most `51 - counter` more
times, which the wrapper supplies as structural fuel so concrete runs
reduce in the kernel; the `counter ≤ 50` guard is kept verbatim. -/
def scanNumberedAux (fs : List String) (dir_path class_base : String) :
    Nat → Nat → List String
  | 0, _ => []
  | fuel + 1, counter =>
    if counter ≤ 50 then
      let numbered_file :=
        os_path_join dir_path (class_base ++ "Test" ++ toString counter ++ ".java")
      if numbered_file ∈ fs then
        numbered_file :: scanNumberedAux fs dir_path class_base fuel (counter + 1)
      else []
    else []

/-- The numbered-version scan of `find_existing_test_files`, from `counter`. -/
def scanNumbered (fs : List String) (dir_path class_base : String) (counter : Nat) :
    List String :=
  scanNumberedAux fs dir_path class_base (51 - counter) counter

/-- `find_existing_test_files(test_base_path)` from core.py:2254. -/
def find_existing_test_files (fs : List String) (test_base_path : String) : List String :=
  if test_base_path ∈ fs then
    let dir_path := os_path_dirname test_base_path
    let base_name := os_path_basename test_base_path
    let class_base :=
      if pyEndsWith base_name "Test.java" then pyDropRight base_name 9
      else pyDropRight base_name 5
    test_base_path :: scanNumbered fs dir_path class_base 2
  else []

/-- `get_next_test_file_name(test_base_path, existing_files)` from core.py:2441. -/
def get_next_test_file_name (test_base_path : String) (existing_files : List String) :
    String :=
  if existing_files.isEmpty then test_base_path
  else
    let dir_path := os_path_dirname test_base_path
    let base_name := os_path_basename test_base_path
    let class_base :=
      if pyEndsWith base_name "Test.java" then pyDropRight base_name 9
      else pyDropRight base_name 5
    os_path_join dir_path (class_base ++ "Test" ++ toString (existing_files.length + 1) ++ ".java")

/-- The numbered path the scan probes for version `k` of a base test path. -/
def numberedPath (test_base_path : String) (k : Nat) : String :=
  let base_name := os_path_basename test_base_path
  let class_base :=
    if pyEndsWith base_name "Test.java" then pyDropRight base_name 9
    else pyDropRight base_name 5
  os_path_join (os_path_dirname test_base_path) (class_base ++ "Test" ++ toString k ++ ".java")

/-- The `counter = 2; while counter <= 10` scan over extracted-archive test
files in `handle_incremental_test_generation` (core.py:2580–2588). -/
def scanZipNumberedAux (fs : List String) (dir_path class_name : String) :
    Nat → Nat → List String
  | 0, _ => []
  | fuel + 1, counter =>
    if counter ≤ 10 then
      let numbered_test_file :=
        os_path_join dir_path (class_name ++ "Test" ++ toString counter ++ ".java")
      if numbered_test_file ∈ fs then
        numbered_test_file :: scanZipNumberedAux fs dir_path class_name fuel (counter + 1)
      else []
    else []

/-- The extracted-archive numbered scan, from `counter` (entered at 2). -/
def scanZipNumbered (fs : List String) (dir_path class_name : String) (counter : Nat) :
    List String :=
  scanZipNumberedAux fs dir_path class_name (11 - counter) counter

/-! ### A small regex engine

The import-detection rules of `enhanced_import_detector.py` and the
extraction patterns of `analyze_java_code` use only this fragment of
Python `re`: literal characters, the escapes `\.` `\(` `\)` `\s` `\w`,
negated single-character classes `[^c]`, the quantifiers `+` and `*`,
and at most one capturing group of the shape `(X+)`.  The engine below
implements exactly that fragment with Python's leftmost-then-greedy
match semantics; `ci` mirrors `re.IGNORECASE` (ASCII case folding). -/

/-- One regex atom of the fragment. -/
inductive RAtom where
  | lit (c : Char)
  | anyWord
  | anySpace
  | notChar (c : Char)
deriving DecidableEq, Repr

/-- Quantifier on a non-capturing atom. -/
inductive RQuant where
  | one
  | plus
  | star
deriving DecidableEq, Repr

/-- Compiled regex token: a quantified atom, a capturing `(a+)` group, or
the internal continuation state of a capture (`capStar`). -/
inductive CTok where
  | tok (a : RAtom) (q : RQuant)
  | cap (a : RAtom)
  | capStar (a : RAtom)
deriving DecidableEq, Repr

/-- Does atom `a` match character `c` (case-insensitively when `ci`)?
`\s` is the ASCII whitespace class, `\w` is `[A-Za-z0-9_]`, and `[^x]`
matches every character other than `x` (including newline, since the
patterns are compiled without `re.DOTALL`-relevant constructs). -/
def atomMatches (ci : Bool) (a : RAtom) (c : Char) : Bool :=
  match a with
  | .lit l => if ci then l.toLower == c.toLower else l == c
  | .anyWord => c.isAlphanum || c == '_'
  | .anySpace => c == ' ' || c == '\t' || c == '\n' || c == '\r' || c == '\x0b' || c == '\x0c'
  | .notChar x => c != x

/-- Match a token list at the start of `s` with greedy backtracking,
returning the text captured by the (single) group and the remainder of
the input after the match end.  Fuelled by `toks.length + s.length + 1`
(every recursive call shrinks the token list or the input, so the
wrapper below always supplies enough fuel); the fuel keeps the
recursion structural so that concrete runs reduce in the kernel. -/
def reMatchCapF (ci : Bool) : Nat → List CTok → List Char → Option (List Char × List Char)
  | 0, _, _ => none
  | _ + 1, [], rest => some ([], rest)
  | fuel + 1, .tok a .one :: ts, c :: cs =>
    if atomMatches ci a c then reMatchCapF ci fuel ts cs else none
  | _ + 1, .tok _ .one :: _, [] => none
  | fuel + 1, .tok a .plus :: ts, c :: cs =>
    if atomMatches ci a c then reMatchCapF ci fuel (.tok a .star :: ts) cs else none
  | _ + 1, .tok _ .plus :: _, [] => none
  | fuel + 1, .tok a .star :: ts, s =>
    (match s with
     | c :: cs =>
       if atomMatches ci a c then reMatchCapF ci fuel (.tok a .star :: ts) cs else none
     | [] => none).orElse (fun _ => reMatchCapF ci fuel ts s)
  | fuel + 1, .cap a :: ts, c :: cs =>
    if atomMatches ci a c then
      (reMatchCapF ci fuel (.capStar a :: ts) cs).map
        (fun (p : List Char × List Char) => (c :: p.1, p.2))
    else none
  | _ + 1, .cap _ :: _, [] => none
  | fuel + 1, .capStar a :: ts, s =>
    (match s with
     | c :: cs =>
       if atomMatches ci a c then
         (reMatchCapF ci fuel (.capStar a :: ts) cs).map
           (fun (p : List Char × List Char) => (c :: p.1, p.2))
       else none
     | [] => none).orElse (fun _ => reMatchCapF ci fuel ts s)

/-- Match a token list at the start of `s` (greedy, with capture). -/
def reMatchCap (ci : Bool) (toks : List CTok) (s : List Char) :
    Option (List Char × List Char) :=
  reMatchCapF ci (toks.length + s.length + 1) toks s

/-- Leftmost match: try each start position from the left, as `re.search`
and `re.finditer` do.  Returns the capture and the remainder after the
match end of the leftmost (then greedy) match. -/
def reSearchCap (ci : Bool) (toks : List CTok) (s : List Char) :
    Option (List Char × List Char) :=
  match reMatchCap ci toks s with
  | some r => some r
  | none =>
    match s with
    | [] => none
    | _ :: cs => reSearchCap ci toks cs

/-- Parse an atom from the head of a pattern.  Returns `none` on an empty
pattern. -/
def parseAtom : List Char → Option (RAtom × List Char)
  | '\\' :: c :: rest =>
    if c = 'w' then some (.anyWord, rest)
    else if c = 's' then some (.anySpace, rest)
    else some (.lit c, rest)
  | '[' :: '^' :: c :: ']' :: rest => some (.notChar c, rest)
  | c :: rest => some (.lit c, rest)
  | [] => none

/-- Parse an optional quantifier. -/
def parseQuant : List Char → RQuant × List Char
  | '+' :: rest => (.plus, rest)
  | '*' :: rest => (.star, rest)
  | rest => (.one, rest)

/-- Compile a pattern of the supported fragment into tokens (fuelled by
the pattern length; every step consumes at least one character). -/
def parseRegexAux : Nat → List Char → List CTok
  | 0, _ => []
  | _ + 1, [] => []
  | fuel + 1, '(' :: rest =>
    match parseAtom rest with
    | some (a, r1) =>
      match parseQuant r1 with
      | (.plus, ')' :: r2) => .cap a :: parseRegexAux fuel r2
      | _ => .tok (.lit '(') .one :: parseRegexAux fuel rest
    | none => [.tok (.lit '(') .one]
  | fuel + 1, s =>
    match parseAtom s with
    | some (a, r1) =>
      let (q, r2) := parseQuant r1
      .tok a q :: parseRegexAux fuel r2
    | none => []

/-- Compile a pattern string. -/
def parseRegex (pat : String) : List CTok := parseRegexAux (pyLen pat) pat.toList

/-- `re.search(pat, text) is not None` (with `re.IGNORECASE` when `ci`). -/
def re_search (ci : Bool) (pat text : String) : Bool :=
  (reSearchCap ci (parseRegex pat) text.toList).isSome

/-- The capture of the first match of `pat` in `text`, when there is one. -/
def re_search_cap (ci : Bool) (pat text : String) : Option String :=
  (reSearchCap ci (parseRegex pat) text.toList).map (fun p => String.mk p.1)

/-- `re.findall(pat, text)` for a single-group pattern: captures of the
non-overlapping matches, scanning left to right (fuelled by the text
length; the patterns used never match the empty string, so each match
consumes input). -/
def reFindAllAux (ci : Bool) (toks : List CTok) : Nat → List Char → List (List Char)
  | 0, _ => []
  | fuel + 1, s =>
    match reSearchCap ci toks s with
    | none => []
    | some (capd, rest) => capd :: reFindAllAux ci toks fuel rest

/-- `re.findall(pat, text)` for a single-group pattern. -/
def re_findall_cap (ci : Bool) (pat text : String) : List String :=
  (reFindAllAux ci (parseRegex pat) (pyLen text + 1) text.toList).map String.mk

/-! ### The import rule engine
(`DynamicImportDetector` in `detectors/enhanced_import_detector.py`).
Rules are transcribed verbatim from `_initialize_rules`; a fresh
detector has `custom_rules = []`, so `detect_imports` evaluates exactly
the built-in list.  The built-in list is already in descending priority
order and Python's `sort` is stable, so the `sort(key=-priority)` in
`detect_imports` is the identity on it. -/

/-- One import-detection rule (pattern list, import list, category,
priority), as in the `ImportRule` dataclass. -/
structure ImportRule where
  patterns : List String
  imports : List String
  category : String
  priority : Nat
deriving DecidableEq, Repr

/-- Servlet API patterns (priority 10). -/
def servletRule : ImportRule where
  patterns := [
    "HttpServletRequest\\s+\\w+",
    "ServletRequest\\s+\\w+",
    "\\.getHeaderNames\\(\\)",
    "\\.getParameterNames\\(\\)",
    "\\.getHeaders\\(\\w+\\)",
    "Enumeration<[^>]+>\\s+\\w+\\s*=\\s*\\w+\\.get\\w+Names\\(\\)"]
  imports := [
    "java.util.Enumeration",
    "jakarta.servlet.http.HttpServletRequest",
    "jakarta.servlet.http.HttpServletResponse",
    "jakarta.servlet.ServletRequest",
    "jakarta.servlet.ServletResponse"]
  category := "servlet"
  priority := 10

/-- Spring Framework patterns (priority 9). -/
def springRule : ImportRule where
  patterns := [
    "HttpHeaders\\s+\\w+",
    "ResponseEntity\\s*<[^>]*>",
    "HttpStatus\\.\\w+",
    "@RestController",
    "@RequestMapping",
    "@GetMapping",
    "@PostMapping",
    "@PutMapping",
    "@DeleteMapping",
    "@Autowired",
    "@Service",
    "@Component",
    "@Repository"]
  imports := [
    "org.springframework.http.HttpHeaders",
    "org.springframework.http.ResponseEntity",
    "org.springframework.http.HttpStatus",
    "org.springframework.web.bind.annotation.RestController",
    "org.springframework.web.bind.annotation.RequestMapping",
    "org.springframework.beans.factory.annotation.Autowired",
    "org.springframework.stereotype.Service",
    "org.springframework.stereotype.Component",
    "org.springframework.stereotype.Repository"]
  category := "spring"
  priority := 9

/-- Jackson JSON patterns (priority 8). -/
def jacksonRule : ImportRule where
  patterns := [
    "ObjectMapper\\s+\\w+",
    "JsonNode\\s+\\w+",
    "\\.readTree\\(",
    "\\.writeValueAsString\\(",
    "\\.readValue\\(",
    "@JsonProperty",
    "@JsonIgnore",
    "JsonProcessingException"]
  imports := [
    "com.fasterxml.jackson.databind.ObjectMapper",
    "com.fasterxml.jackson.databind.JsonNode",
    "com.fasterxml.jackson.core.JsonProcessingException",
    "com.fasterxml.jackson.annotation.JsonProperty",
    "com.fasterxml.jackson.annotation.JsonIgnore"]
  category := "jackson"
  priority := 8

/-- Stream and Collections patterns (priority 7). -/
def streamCollectionsRule : ImportRule where
  patterns := [
    "\\.stream\\(\\)",
    "\\.collect\\(",
    "Collectors\\.\\w+",
    "Stream\\s*<[^>]*>",
    "\\.filter\\(",
    "\\.map\\(",
    "\\.forEach\\(",
    "\\.reduce\\(",
    "\\.flatMap\\(",
    "\\.distinct\\(\\)",
    "\\.sorted\\(",
    "\\.limit\\(",
    "\\.skip\\("]
  imports := [
    "java.util.stream.Stream",
    "java.util.stream.Collectors",
    "java.util.stream.IntStream",
    "java.util.stream.LongStream",
    "java.util.stream.DoubleStream",
    "java.util.function.Function",
    "java.util.function.Predicate",
    "java.util.function.Consumer"]
  category := "collections"
  priority := 7

/-- Reflection patterns (priority 6). -/
def reflectionRule : ImportRule where
  patterns := [
    "Method\\s+\\w+",
    "Field\\s+\\w+",
    "\\.setAccessible\\(",
    "\\.getDeclaredMethods\\(\\)",
    "\\.getDeclaredFields\\(\\)",
    "\\.invoke\\(",
    "\\.get\\(\\w+\\)",
    "\\.set\\(\\w+,",
    "Class\\.forName\\(",
    "\\.getClass\\(\\)",
    "\\.newInstance\\(\\)"]
  imports := [
    "java.lang.reflect.Method",
    "java.lang.reflect.Field",
    "java.lang.reflect.Constructor",
    "java.lang.reflect.InvocationTargetException",
    "java.lang.reflect.Modifier",
    "java.lang.ClassNotFoundException",
    "java.lang.InstantiationException",
    "java.lang.IllegalAccessException"]
  category := "reflection"
  priority := 6

/-- I/O patterns (priority 5). -/
def ioRule : ImportRule where
  patterns := [
    "InputStream\\s+\\w+",
    "OutputStream\\s+\\w+",
    "ByteArrayInputStream\\s+\\w+",
    "FileInputStream\\s+\\w+",
    "InputStreamReader\\s+\\w+",
    "BufferedReader\\s+\\w+",
    "FileReader\\s+\\w+",
    "PrintWriter\\s+\\w+",
    "IOException",
    "Files\\.\\w+",
    "Path\\s+\\w+",
    "Paths\\.get\\("]
  imports := [
    "java.io.InputStream",
    "java.io.OutputStream",
    "java.io.ByteArrayInputStream",
    "java.io.FileInputStream",
    "java.io.InputStreamReader",
    "java.io.BufferedReader",
    "java.io.FileReader",
    "java.io.PrintWriter",
    "java.io.IOException",
    "java.nio.file.Files",
    "java.nio.file.Path",
    "java.nio.file.Paths"]
  category := "io"
  priority := 5

/-- Concurrency patterns (priority 4). -/
def concurrentRule : ImportRule where
  patterns := [
    "CompletableFuture\\s*<[^>]*>",
    "ExecutorService\\s+\\w+",
    "ThreadPoolExecutor\\s+\\w+",
    "Future\\s*<[^>]*>",
    "TimeUnit\\.\\w+",
    "@Async",
    "CountDownLatch\\s+\\w+",
    "ConcurrentHashMap\\s*<[^>]*>",
    "AtomicInteger\\s+\\w+",
    "AtomicLong\\s+\\w+",
    "ReentrantLock\\s+\\w+"]
  imports := [
    "java.util.concurrent.CompletableFuture",
    "java.util.concurrent.ExecutorService",
    "java.util.concurrent.ThreadPoolExecutor",
    "java.util.concurrent.Future",
    "java.util.concurrent.TimeUnit",
    "java.util.concurrent.CountDownLatch",
    "java.util.concurrent.ConcurrentHashMap",
    "java.util.concurrent.atomic.AtomicInteger",
    "java.util.concurrent.atomic.AtomicLong",
    "java.util.concurrent.locks.ReentrantLock"]
  category := "concurrent"
  priority := 4

/-- Time and date patterns (priority 3). -/
def timeRule : ImportRule where
  patterns := [
    "LocalDateTime\\s+\\w+",
    "LocalDate\\s+\\w+",
    "LocalTime\\s+\\w+",
    "Instant\\s+\\w+",
    "ZonedDateTime\\s+\\w+",
    "DateTimeFormatter\\s+\\w+",
    "Duration\\s+\\w+",
    "Period\\s+\\w+",
    "\\.now\\(\\)",
    "\\.parse\\(",
    "\\.format\\(",
    "\\.ofPattern\\("]
  imports := [
    "java.time.LocalDateTime",
    "java.time.LocalDate",
    "java.time.LocalTime",
    "java.time.Instant",
    "java.time.ZonedDateTime",
    "java.time.format.DateTimeFormatter",
    "java.time.Duration",
    "java.time.Period",
    "java.time.ZoneId",
    "java.time.temporal.ChronoUnit"]
  category := "time"
  priority := 3

/-- Regular-expression patterns (priority 2). -/
def regexRule : ImportRule where
  patterns := [
    "Pattern\\s+\\w+",
    "Matcher\\s+\\w+",
    "Pattern\\.compile\\(",
    "\\.matcher\\(",
    "\\.matches\\(",
    "\\.find\\(\\)",
    "\\.group\\(",
    "\\.replaceAll\\(",
    "\\.split\\("]
  imports := [
    "java.util.regex.Pattern",
    "java.util.regex.Matcher",
    "java.util.regex.PatternSyntaxException"]
  category := "regex"
  priority := 2

/-- Network patterns (priority 1). -/
def networkRule : ImportRule where
  patterns := [
    "URL\\s+\\w+",
    "URI\\s+\\w+",
    "HttpURLConnection\\s+\\w+",
    "URLConnection\\s+\\w+",
    "MalformedURLException",
    "URISyntaxException",
    "Socket\\s+\\w+",
    "ServerSocket\\s+\\w+",
    "InetAddress\\s+\\w+"]
  imports := [
    "java.net.URL",
    "java.net.URI",
    "java.net.HttpURLConnection",
    "java.net.URLConnection",
    "java.net.MalformedURLException",
    "java.net.URISyntaxException",
    "java.net.Socket",
    "java.net.ServerSocket",
    "java.net.InetAddress"]
  category := "network"
  priority := 1

/-- Exception-handling patterns (priority 1). -/
def exceptionRule : ImportRule where
  patterns := [
    "throw\\s+new\\s+\\w+Exception",
    "throws\\s+\\w+Exception",
    "catch\\s*\\(\\s*\\w+Exception",
    "RuntimeException\\s+\\w+",
    "IllegalArgumentException\\s+\\w+",
    "IllegalStateException\\s+\\w+",
    "UnsupportedOperationException\\s+\\w+"]
  imports := [
    "java.lang.Exception",
    "java.lang.RuntimeException",
    "java.lang.IllegalArgumentException",
    "java.lang.IllegalStateException",
    "java.lang.UnsupportedOperationException",
    "java.lang.NullPointerException",
    "java.lang.IndexOutOfBoundsException"]
  category := "exception"
  priority := 1

/-- Utility-class patterns (priority 1). -/
def utilityRule : ImportRule where
  patterns := [
    "Optional\\s*<[^>]*>",
    "Optional\\s+\\w+",
    "\\.of\\(",
    "\\.ofNullable\\(",
    "\\.orElse\\(",
    "\\.orElseGet\\(",
    "\\.isPresent\\(\\)",
    "\\.isEmpty\\(\\)",
    "Arrays\\.\\w+",
    "Collections\\.\\w+",
    "Objects\\.\\w+",
    "StringUtils\\.\\w+"]
  imports := [
    "java.util.Optional",
    "java.util.Arrays",
    "java.util.Collections",
    "java.util.Objects",
    "java.util.StringJoiner",
    "java.util.UUID",
    "java.util.Base64"]
  category := "utility"
  priority := 1

/-- The built-in rule list of `_initialize_rules`, in declaration order
(which is also descending priority order). -/
def importRules : List ImportRule :=
  [servletRule, springRule, jacksonRule, streamCollectionsRule, reflectionRule,
   ioRule, concurrentRule, timeRule, regexRule, networkRule, exceptionRule,
   utilityRule]

/-- `DynamicImportDetector.detect_imports(java_code)['detected_imports']`:
for each rule whose pattern list has at least one `re.search` hit
(case-insensitive), add all of the rule's imports to a set; return the
sorted set.  The dictionary's reporting fields (`matched_rules`,
`category_counts`, `total_rules_matched`) are not consumed by any
embedded claim and are omitted. -/
def detect_imports (java_code : String) : List String :=
  sortDedup (importRules.foldl
    (fun acc rule =>
      if rule.patterns.any (fun p => re_search true p java_code) then
        acc ++ rule.imports
      else acc)
    [])

/-- `DynamicImportDetector.get_contextual_imports(java_code, class_name)`:
the pattern-detected imports plus naming-convention additions keyed on
the class name, deduplicated and sorted. -/
def get_contextual_imports (java_code : String) (class_name : String) : List String :=
  let detected_imports := detect_imports java_code
  let extra :=
    if class_name ≠ "" then
      let class_lower := pyLower class_name
      if pyIn "controller" class_lower then
        ["org.springframework.web.bind.annotation.RestController",
         "org.springframework.web.bind.annotation.RequestMapping",
         "org.springframework.http.ResponseEntity"]
      else if pyIn "service" class_lower then
        ["org.springframework.stereotype.Service",
         "org.springframework.beans.factory.annotation.Autowired"]
      else if pyIn "repository" class_lower || pyIn "dao" class_lower then
        ["org.springframework.stereotype.Repository",
         "org.springframework.data.jpa.repository.JpaRepository"]
      else if pyIn "validator" class_lower then
        ["jakarta.validation.Valid",
         "jakarta.validation.constraints.NotNull",
         "jakarta.validation.constraints.NotEmpty"]
      else if pyIn "test" class_lower then
        ["org.junit.jupiter.api.Test",
         "org.junit.jupiter.api.BeforeEach",
         "org.mockito.Mock",
         "org.mockito.InjectMocks"]
      else []
    else []
  sortDedup (detected_imports ++ extra)

/-! ### `analyze_java_code` — import combination slice
(core.py lines 734–831 and the returned import fields).  The
method/constructor/field extraction does not feed any import field and
is embedded separately below. -/

/-- `any(imp.startswith(p) for p in ps)`. -/
def startsWithAny (s : String) (ps : List String) : Bool :=
  ps.any (fun p => pyStartsWith s p)

/-- The import-related fields of the dictionary returned by
`analyze_java_code`. -/
structure ImportAnalysis where
  package_name : String
  class_name : String
  imports : List String
  detected_imports : List String
  contextual_imports : List String
  project_specific_imports : List String
  application_classes : List String
  filtered_detected_imports : List String
  all_test_imports : List String
deriving DecidableEq, Repr

/-- The import-related part of `analyze_java_code(java_code)`:
package/class/import extraction by the regexes of lines 741–749, the
project-import/application-class loop of lines 796–818, the conflict
filter of lines 820–828, and the combination of line 831.  Python's
`list(set(...))` at line 831 has arbitrary order; it is modelled by an
order-preserving deduplication, and every claim about it only uses
membership. -/
def analyze_java_imports (java_code : String) : ImportAnalysis :=
  let package_name := (re_search_cap false "package\\s+([^;]+);" java_code).getD ""
  let class_name :=
    (re_search_cap false "public\\s+class\\s+(\\w+)" java_code).getD "UnknownClass"
  let imports := re_findall_cap false "import\\s+([^;]+);" java_code
  let detected_imports := detect_imports java_code
  let contextual_imports := get_contextual_imports java_code class_name
  let step := imports.foldl
    (fun (acc : List String × List String) imp =>
      if !(startsWithAny imp
            ["java.", "javax.", "jakarta.", "org.junit", "org.mockito",
             "org.springframework.test"]) then
        if package_name ≠ "" && pyStartsWith imp package_name then
          (acc.1 ++ [simpleClassName imp], acc.2 ++ [imp])
        else if (["apache.commons", "fasterxml.jackson", "google.guava", "slf4j",
                  "logback", "lombok"].any (fun kw => pyIn kw (pyLower imp)))
                || (pyIn "." imp && !pyStartsWith imp "org.springframework.") then
          (acc.1, acc.2 ++ [imp])
        else if !(startsWithAny imp
                   ["org.springframework", "org.apache.logging", "org.slf4j"]) then
          (acc.1, acc.2 ++ [imp])
        else acc
      else acc)
    ([], [])
  let application_classes := step.1
  let project_specific_imports := step.2
  let filtered_detected_imports :=
    detected_imports.filter (fun d => !(application_classes.contains (simpleClassName d)))
  let all_test_imports :=
    (filtered_detected_imports ++ contextual_imports ++ project_specific_imports).eraseDups
  { package_name, class_name, imports, detected_imports, contextual_imports,
    project_specific_imports, application_classes, filtered_detected_imports,
    all_test_imports }

/-! ### `analyze_java_code` — method extraction slice
(core.py lines 751–787 and 853–868).  The raw tuples produced by
`re.findall(method_pattern, java_code)` are taken as a universally
quantified input list, so every theorem below holds for every possible
output of the regex; lines 756–783 (the name filter and the per-method
dictionary) and 864–868 (the public/private partition) are transcribed
verbatim. -/

/-- One entry of `parameter_list`. -/
structure ParamInfo where
  ptype : String
  pname : String
deriving DecidableEq, Repr

/-- One raw `(visibility, return_type, name, parameters)` tuple from
`re.findall(method_pattern, java_code)`. -/
structure RawMethod where
  visibility : String
  return_type : String
  name : String
  parameters : String
deriving DecidableEq, Repr

/-- One dictionary of `detailed_methods` (core.py lines 773–783). -/
structure DetailedMethod where
  visibility : String
  return_type : String
  name : String
  parameters : String
  parameter_list : List ParamInfo
  signature : String
  is_getter : Bool
  is_setter : Bool
  is_boolean_getter : Bool
deriving DecidableEq, Repr

/-- `s.strip()` of Python (ASCII whitespace). -/
def pyStrip (s : String) : String :=
  String.mk (((s.toList.dropWhile isPySpace).reverse.dropWhile isPySpace).reverse)
  where isPySpace (c : Char) : Bool :=
    c == ' ' || c == '\t' || c == '\n' || c == '\r' || c == '\x0b' || c == '\x0c'

/-- `s.split(',')` of Python. -/
def pySplitComma (s : String) : List String := go s.toList []
  where go : List Char → List Char → List String
    | [], acc => [String.mk acc.reverse]
    | c :: cs, acc =>
      if c = ',' then String.mk acc.reverse :: go cs [] else go cs (c :: acc)

/-- `s.split()` of Python: split on whitespace runs, dropping empties. -/
def pySplitWs (s : String) : List String :=
  ((s.toList.splitOnP (fun c => pyStrip.isPySpace c)).filter
    (fun w => ¬ w.isEmpty)).map String.mk

/-- `' '.join(l)` of Python. -/
def pyJoinSpace (l : List String) : String := String.intercalate " " l

/-- The `param_list` computation of core.py lines 760–771. -/
def buildParamList (parameters : String) : List ParamInfo :=
  let clean_params := pyStrip parameters
  if clean_params = "" then []
  else
    (pySplitComma clean_params).foldl
      (fun acc param =>
        let param := pyStrip param
        if param ≠ "" then
          let param_parts := pySplitWs param
          if param_parts.length ≥ 2 then
            acc ++ [{ ptype := pyJoinSpace (param_parts.dropLast),
                      pname := param_parts.getLastD "" }]
          else acc
        else acc)
      []

/-- The dictionary built for one raw method (core.py lines 760–783). -/
def mkDetailedMethod (rm : RawMethod) : DetailedMethod :=
  let clean_params := pyStrip rm.parameters
  let param_list := buildParamList rm.parameters
  { visibility := rm.visibility
    return_type := rm.return_type
    name := rm.name
    parameters := clean_params
    parameter_list := param_list
    signature := rm.visibility ++ " " ++ rm.return_type ++ " " ++ rm.name ++ "(" ++ clean_params ++ ")"
    is_getter := pyStartsWith rm.name "get" && param_list.length == 0 && rm.return_type != "void"
    is_setter := pyStartsWith rm.name "set" && param_list.length == 1 && rm.return_type == "void"
    is_boolean_getter := pyStartsWith rm.name "is" && param_list.length == 0 &&
      (pyLower rm.return_type == "boolean" || pyLower rm.return_type == "bool") }

/-- `detailed_methods` (core.py lines 756–783): every raw match whose
name is not `equals`, `hashCode` or `toString`, in order. -/
def build_detailed_methods (all_methods : List RawMethod) : List DetailedMethod :=
  all_methods.filterMap
    (fun rm =>
      if rm.name ∈ ["equals", "hashCode", "toString"] then none
      else some (mkDetailedMethod rm))

/-- One step of the public/private partition loop (core.py lines 864–868). -/
def splitStep (exclude_private_methods : Bool)
    (acc : List DetailedMethod × List DetailedMethod) (m : DetailedMethod) :
    List DetailedMethod × List DetailedMethod :=
  if m.visibility ∈ ["public", "protected"] then (acc.1 ++ [m], acc.2)
  else if m.visibility == "private" && !exclude_private_methods then
    (acc.1, acc.2 ++ [m])
  else acc

/-- The public/private partition of core.py lines 864–868:
`exclude_private_methods` mirrors the process-wide
`EXCLUDE_PRIVATE_METHOD_TESTS` toggle. -/
def split_public_private (detailed : List DetailedMethod) (exclude_private_methods : Bool) :
    List DetailedMethod × List DetailedMethod :=
  detailed.foldl (splitStep exclude_private_methods) ([], [])

/-- The `'methods'` list of the analysis dictionary for a given raw match
list: the public/protected detailed methods. -/
def analyze_methods (all_methods : List RawMethod) (exclude_private_methods : Bool) :
    List DetailedMethod :=
  (split_public_private (build_detailed_methods all_methods) exclude_private_methods).1

/-- The `'private_methods'` list of the analysis dictionary. -/
def analyze_private_methods (all_methods : List RawMethod)
    (exclude_private_methods : Bool) : List DetailedMethod :=
  (split_public_private (build_detailed_methods all_methods) exclude_private_methods).2

/-! ### Coverage reconciliation — `get_uncovered_methods`
(core.py lines 2352–2439).  Reading a test file from disk and running
`extract_test_methods_from_file`'s regex over it is abstracted: each
existing test file is represented by the list of test-method names
extracted from it (the claims quantify over those extracted names), so
`existing_test_files : List (List String)` and
`all_test_methods = existing_test_files.flatten` mirrors the
extend-loop of lines 2366–2369.  The set `test_method_variations` is
modelled as a list with possible duplicates; the per-method loop only
asks whether *some* variation matches, which is unaffected by order or
duplication. -/

/-- The variation set of core.py lines 2372–2381: for each extracted
test-method name, its lowercase form, and the forms with a leading or
trailing `test` stripped. -/
def buildVariations (all_test_methods : List String) : List String :=
  all_test_methods.foldr
    (fun test_method acc =>
      let test_method_lower := pyLower test_method
      test_method_lower ::
        ((if pyStartsWith test_method_lower "test" then [pyDrop test_method_lower 4] else []) ++
         (if pyEndsWith test_method_lower "test" then [pyDropRight test_method_lower 4] else []) ++
         acc))
    []

/-- One pass of the matching ladder of core.py lines 2394–2429 for a
lowercased candidate name against one variation: the length-3 guard,
exact equality, the two 40%-containment tiers, and the 50% fuzzy tier
on separator-stripped forms.  Float ratios are the exact rational
comparisons (see the file header). -/
def coverageMatch (method_name test_variation : String) : Bool :=
  if pyLen method_name < 3 || pyLen test_variation < 3 then false
  else if method_name == test_variation then true
  else if pyLen method_name ≥ 4 && pyIn method_name test_variation &&
          10 * pyLen method_name ≥ 4 * pyLen test_variation then true
  else if pyLen test_variation ≥ 4 && pyIn test_variation method_name &&
          10 * pyLen test_variation ≥ 4 * pyLen method_name then true
  else
    let method_clean := pyStripSeparators method_name
    let test_clean := pyStripSeparators test_variation
    if pyLen method_clean ≥ 4 && pyLen test_clean ≥ 4 then
      (pyIn method_clean test_clean && 2 * pyLen method_clean ≥ pyLen test_clean) ||
      (pyIn test_clean method_clean && 2 * pyLen test_clean ≥ pyLen method_clean)
    else false

/-- `is_covered` for one candidate: some variation matches. -/
def isCovered (method_name : String) (variations : List String) : Bool :=
  variations.any (fun v => coverageMatch method_name v)

/-- `get_uncovered_methods(class_methods, existing_test_files)` from
core.py:2352. -/
def get_uncovered_methods (class_methods : List DetailedMethod)
    (existing_test_files : List (List String)) : List DetailedMethod :=
  if existing_test_files.isEmpty then class_methods
  else
    let all_test_methods := existing_test_files.flatten
    let test_method_variations := buildVariations all_test_methods
    class_methods.filter
      (fun method => !(isCovered (pyLower method.name) test_method_variations))

/-! ### Per-unit processing in `process_java_zip_enhanced_core`
(core.py lines 3336–3391).  A source unit is represented by its
analysis outcome; the external generation-and-save step
(`generate_enhanced_junit_test_with_files` + `save_test_file`,
lines 3362–3386) is an opaque function `gen`, applied only when the
unit is not skipped. -/

/-- The analysis dictionary as consumed by the batch loop: either an
error dictionary (`{'error': msg}`) or a successful analysis carrying
the `'methods'` list (plus fields not consulted by the skip logic). -/
inductive AnalysisResult where
  | err (msg : String)
  | ok (methods : List DetailedMethod)
deriving DecidableEq, Repr

/-- The `try/except` wrapper of `analyze_java_code` (core.py lines
736 and 936–937): the body's execution is an `Except` value — a raised
exception `e` becomes the structured dictionary
`{'error': "Error analyzing Java code: " + str(e)}`, never a raise. -/
def analyze_java_code_wrapper (body : Except String (List DetailedMethod)) :
    AnalysisResult :=
  match body with
  | .ok methods => .ok methods
  | .error e => .err ("Error analyzing Java code: " ++ e)

/-- Outcome of the loop body of lines 3340–3386 for one unit. -/
inductive UnitOutcome (ρ : Type) where
  | skippedError (msg : String)
  | skippedNoMethods
  | generated (r : ρ)
deriving DecidableEq, Repr

/-- The per-unit control flow of core.py lines 3342–3375: an analysis
error skips the unit (`continue`), an empty `'methods'` list skips the
unit (`continue`), and only otherwise is the generation call made. -/
def processUnit {ρ : Type} (gen : List DetailedMethod → ρ) (analysis : AnalysisResult) :
    UnitOutcome ρ :=
  match analysis with
  | .err m => .skippedError m
  | .ok methods =>
    if methods.isEmpty then .skippedNoMethods
    else .generated (gen methods)

/-- `generated_tests` accumulated by the batch loop over all units
(core.py lines 3313–3391): skipped units contribute nothing. -/
def process_units {ρ : Type} (gen : List DetailedMethod → ρ)
    (units : List AnalysisResult) : List ρ :=
  units.foldl
    (fun acc u =>
      match processUnit gen u with
      | .generated r => acc ++ [r]
      | _ => acc)
    []

/-! ### The validate-fix loop — `auto_fix_validation_issues_with_llm`
(core.py lines 456–670).  The external LLM call plus re-validation of
one iteration (lines 582–607) is one oracle entry: `some (code', vr')`
when both succeed, `none` when the iteration's external calls raise
(the `except` of line 640, which breaks the loop); an exhausted oracle
list is treated like an abort.  Everything else — issue collection,
scoring, best-iteration tracking, the three early-exit conditions and
the iteration budget — is transcribed from the source. -/

/-- The validator report (`validate_java_imports_and_compilation`
output) as consumed by the loop: the four issue collections and the
status string.  Issue payloads are opaque strings; only presence and
count are consumed. -/
structure ValidationResult where
  validation_status : String
  critical_issues : List String
  missing_imports : List String
  compilation_errors : List String
  unused_imports : List String
deriving DecidableEq, Repr

/-- `calculate_total_issues` (core.py lines 470–479):
`10*critical + 8*compilation + 5*missing + 1*unused`. -/
def calculate_total_issues (validation_result : ValidationResult) : Nat :=
  validation_result.critical_issues.length * 10 +
  validation_result.compilation_errors.length * 8 +
  validation_result.missing_imports.length * 5 +
  validation_result.unused_imports.length * 1

/-- `all_issues` of lines 492–522 is nonempty: some issue collection is
nonempty (each collection contributes one flat-list entry per element). -/
def hasIssues (validation_result : ValidationResult) : Bool :=
  !validation_result.critical_issues.isEmpty ||
  !validation_result.missing_imports.isEmpty ||
  !validation_result.compilation_errors.isEmpty ||
  !validation_result.unused_imports.isEmpty

/-- The early-exit test of line 636: no critical, missing-import or
compilation issues remain (unused imports alone do not block exit). -/
def majorsClear (validation_result : ValidationResult) : Bool :=
  validation_result.critical_issues.isEmpty &&
  validation_result.missing_imports.isEmpty &&
  validation_result.compilation_errors.isEmpty

/-- The `best_iteration` dictionary of core.py lines 460–465. -/
structure IterationRecord where
  code : String
  validation_result : ValidationResult
  iteration_number : Nat
  total_issues : Nat
deriving DecidableEq, Repr

/-- The update of lines 620–630: replace the best record only on a
strictly smaller weighted score (ties keep the earlier record). -/
def bestStep (best r : IterationRecord) : IterationRecord :=
  if r.total_issues < best.total_issues then r else best

/-- Folding `bestStep` over the iteration records, seeded with the
pre-loop record. -/
def selectBest (best : IterationRecord) (records : List IterationRecord) :
    IterationRecord :=
  records.foldl bestStep best

/-- One oracle entry: the LLM fix plus re-validation of one iteration,
or `none` when those external calls raise. -/
abbrev LlmStep := Option (String × ValidationResult)

/-- The `while iteration < max_iterations` loop of core.py lines
487–642, with `fuel` the remaining iteration budget and `iter` the
1-based number of the iteration about to run. -/
def autoFixLoop : Nat → Nat → ValidationResult → IterationRecord → List LlmStep →
    IterationRecord
  | 0, _, _, best, _ => best
  | _ + 1, _, _, best, [] => best
  | fuel + 1, iter, vr, best, step :: oracle =>
    if hasIssues vr then
      match step with
      | none => best
      | some (code', vr') =>
        let r : IterationRecord :=
          { code := code', validation_result := vr', iteration_number := iter,
            total_issues := calculate_total_issues vr' }
        let best' := bestStep best r
        if vr'.validation_status == "PASS" || majorsClear vr' then best'
        else autoFixLoop fuel (iter + 1) vr' best' oracle
    else best

/-- `auto_fix_validation_issues_with_llm(java_code, validation_result,
max_iterations)` (core.py lines 456–670), returning the best
iteration's code.  `best_iteration` starts as the unmodified input with
the initial weighted score (lines 460–483). -/
def auto_fix_validation_issues_with_llm (java_code : String)
    (validation_result : ValidationResult) (max_iterations : Nat)
    (oracle : List LlmStep) : String :=
  let init : IterationRecord :=
    { code := java_code, validation_result := validation_result,
      iteration_number := 0,
      total_issues := calculate_total_issues validation_result }
  (autoFixLoop max_iterations 1 validation_result init oracle).code

/-- The pre-loop record for a given input. -/
def initRecord (java_code : String) (validation_result : ValidationResult) :
    IterationRecord :=
  { code := java_code, validation_result := validation_result,
    iteration_number := 0,
    total_issues := calculate_total_issues validation_result }

/-- The records of the iterations the loop actually completes (same
control flow as `autoFixLoop`, which never consults the best record to
decide control). -/
def completedRecords : Nat → Nat → ValidationResult → List LlmStep →
    List IterationRecord
  | 0, _, _, _ => []
  | _ + 1, _, _, [] => []
  | fuel + 1, iter, vr, step :: oracle =>
    if hasIssues vr then
      match step with
      | none => []
      | some (code', vr') =>
        let r : IterationRecord :=
          { code := code', validation_result := vr', iteration_number := iter,
            total_issues := calculate_total_issues vr' }
        if vr'.validation_status == "PASS" || majorsClear vr' then [r]
        else r :: completedRecords fuel (iter + 1) vr' oracle
    else []

/-! ## Theorems -/

/-! ### Claim C2 and C10 — versioning -/

lemma scanNumberedAux_length_le (fs : List String) (dir_path class_base : String) :
    ∀ fuel counter, (scanNumberedAux fs dir_path class_base fuel counter).length ≤ fuel := by
  intro fuel
  induction fuel with
  | zero => intro counter; simp [scanNumberedAux]
  | succ n ih =>
    intro counter
    simp only [scanNumberedAux]
    split
    · split
      · simpa using Nat.succ_le_succ (ih (counter + 1))
      · simp
    · simp

lemma scanNumberedAux_length_eq (fs : List String) (dir_path class_base : String)
    (N : Nat) (hN1 : 1 ≤ N) (hN50 : N ≤ 50)
    (hnum : ∀ k, 2 ≤ k → k ≤ N →
      os_path_join dir_path (class_base ++ "Test" ++ toString k ++ ".java") ∈ fs)
    (hgap : os_path_join dir_path (class_base ++ "Test" ++ toString (N + 1) ++ ".java") ∉ fs) :
    ∀ d counter, 2 ≤ counter → counter + d = N + 1 →
      (scanNumberedAux fs dir_path class_base (51 - counter) counter).length = d := by
  intro d
  induction d with
  | zero =>
    intro counter h2 hend
    have hc : counter = N + 1 := by omega
    subst hc
    by_cases h50 : N + 1 ≤ 50
    · have h51 : 51 - (N + 1) = (50 - (N + 1)) + 1 := by omega
      rw [h51]
      simp only [scanNumberedAux, if_pos h50]
      rw [if_neg hgap]
      simp
    · have h51 : 51 - (N + 1) = 0 := by omega
      rw [h51]
      simp [scanNumberedAux]
  | succ d ih =>
    intro counter h2 hend
    have hle : counter ≤ N := by omega
    have h50 : counter ≤ 50 := by omega
    have h51 : 51 - counter = (50 - counter) + 1 := by omega
    rw [h51]
    simp only [scanNumberedAux, if_pos h50]
    rw [if_pos (hnum counter h2 hle)]
    have h51' : 50 - counter = 51 - (counter + 1) := by omega
    rw [List.length_cons, h51', ih (counter + 1) (by omega) (by omega)]

/-- Claim C2 (amended): for every base test path and filesystem holding
the primary file and the contiguously numbered files `Test2..TestN`
with `1 ≤ N ≤ 50` and `TestN+1` absent (anything else, including
numbered files past the gap, may exist), `get_next_test_file_name`
applied to `find_existing_test_files` returns exactly the path numbered
`N + 1`, because the existing-file scan stops at the first missing
number. -/
theorem nextVersionPath_returns_succ (fs : List String) (base : String) (N : Nat)
    (hN1 : 1 ≤ N) (hN50 : N ≤ 50) (hbase : base ∈ fs)
    (hnum : ∀ k, 2 ≤ k → k ≤ N → numberedPath base k ∈ fs)
    (hgap : numberedPath base (N + 1) ∉ fs) :
    get_next_test_file_name base (find_existing_test_files fs base) =
      numberedPath base (N + 1) := by
  simp only [numberedPath] at hnum hgap ⊢
  simp only [find_existing_test_files, if_pos hbase]
  have hlen := scanNumberedAux_length_eq fs (os_path_dirname base)
    (if pyEndsWith (os_path_basename base) "Test.java" then
        pyDropRight (os_path_basename base) 9
      else pyDropRight (os_path_basename base) 5)
    N hN1 hN50 hnum hgap (N - 1) 2 (by omega) (by omega)
  simp only [get_next_test_file_name, scanNumbered, List.isEmpty_cons, Bool.false_eq_true,
    if_false, List.length_cons, hlen]
  have : N - 1 + 1 + 1 = N + 1 := by omega
  rw [this]

/-- Witness for `nextVersionPath_returns_succ`: three artifacts
(primary, `Test2`, `Test3`), next version is `Test4`. -/
theorem nextVersionPath_returns_succ_witness :
    get_next_test_file_name "FooTest.java"
        (find_existing_test_files ["FooTest.java", "FooTest2.java", "FooTest3.java"]
          "FooTest.java") =
      numberedPath "FooTest.java" 4 :=
  nextVersionPath_returns_succ ["FooTest.java", "FooTest2.java", "FooTest3.java"]
    "FooTest.java" 3 (by decide) (by decide) (by decide)
    (by decide) (by decide)

/-- Counterexample to claim C2 as stated: with the primary file plus the
contiguously numbered files `Test2..Test51` (`N = 51`), the scan stops
at `Test50`, so the returned path is `FooTest51.java` — an occupied
path — and not the claimed `TestN+1 = FooTest52.java`. -/
theorem nextVersionPath_cap_counterexample :
    get_next_test_file_name "FooTest.java"
        (find_existing_test_files
          ("FooTest.java" ::
            (List.range 50).map (fun i => "FooTest" ++ toString (i + 2) ++ ".java"))
          "FooTest.java") = "FooTest51.java" ∧
    "FooTest51.java" ∈
      ("FooTest.java" ::
        (List.range 50).map (fun i => "FooTest" ++ toString (i + 2) ++ ".java")) ∧
    get_next_test_file_name "FooTest.java"
        (find_existing_test_files
          ("FooTest.java" ::
            (List.range 50).map (fun i => "FooTest" ++ toString (i + 2) ++ ".java"))
          "FooTest.java") ≠ "FooTest52.java" := by
  refine ⟨by decide, by decide, by decide⟩

/-- Claim C10: the numbered-artifact scans are bounded: for every
filesystem state, `find_existing_test_files` probes numbered versions
only up to `Test50` and returns at most 50 paths (primary plus at most
49 numbered), and the analogous scan over extracted-archive test files
(`handle_incremental_test_generation`) collects at most the versions
`Test2..Test10`. -/
theorem numbered_scan_bounded (fs : List String) (base dir_path class_name : String) :
    (find_existing_test_files fs base).length ≤ 50 ∧
    (scanZipNumbered fs dir_path class_name 2).length ≤ 9 := by
  constructor
  · unfold find_existing_test_files
    split
    · simp only [List.length_cons, scanNumbered]
      have := scanNumberedAux_length_le fs (os_path_dirname base)
        (if pyEndsWith (os_path_basename base) "Test.java" then
            pyDropRight (os_path_basename base) 9
          else pyDropRight (os_path_basename base) 5) (51 - 2) 2
      omega
    · simp
  · have : ∀ fuel counter,
        (scanZipNumberedAux fs dir_path class_name fuel counter).length ≤ fuel := by
      intro fuel
      induction fuel with
      | zero => intro counter; simp [scanZipNumberedAux]
      | succ n ih =>
        intro counter
        simp only [scanZipNumberedAux]
        split
        · split
          · simpa using Nat.succ_le_succ (ih (counter + 1))
          · simp
        · simp
    have h := this (11 - 2) 2
    simpa [scanZipNumbered] using h

/-! ### Claim C8 — `equals`/`hashCode`/`toString` exclusion -/

lemma mem_build_detailed_methods_name {raw : List RawMethod} {m : DetailedMethod}
    (hm : m ∈ build_detailed_methods raw) :
    m.name ∉ (["equals", "hashCode", "toString"] : List String) := by
  obtain ⟨rm, _, hsome⟩ := List.mem_filterMap.mp hm
  by_cases hname : rm.name ∈ (["equals", "hashCode", "toString"] : List String)
  · simp [hname] at hsome
  · rw [if_neg hname] at hsome
    have hmm : m = mkDetailedMethod rm := (Option.some.inj hsome).symm
    have hn : m.name = rm.name := by rw [hmm]; rfl
    rw [hn]
    exact hname

lemma mem_splitStep_fold (excl : Bool) :
    ∀ (l : List DetailedMethod) (p q : List DetailedMethod) (x : DetailedMethod),
      (x ∈ (l.foldl (splitStep excl) (p, q)).1 → x ∈ p ∨ x ∈ l) ∧
      (x ∈ (l.foldl (splitStep excl) (p, q)).2 → x ∈ q ∨ x ∈ l) := by
  intro l
  induction l with
  | nil => intro p q x; simp
  | cons m rest ih =>
    intro p q x
    constructor
    · intro hx
      rw [List.foldl_cons] at hx
      have step1 : (splitStep excl (p, q) m).1 = p ∨ (splitStep excl (p, q) m).1 = p ++ [m] := by
        unfold splitStep; split
        · right; rfl
        · split
          · left; rfl
          · left; rfl
      have := (ih (splitStep excl (p, q) m).1 (splitStep excl (p, q) m).2 x).1
      rw [show ((splitStep excl (p, q) m).1, (splitStep excl (p, q) m).2) =
          splitStep excl (p, q) m from rfl] at this
      rcases this hx with h | h
      · rcases step1 with e | e
        · rw [e] at h; exact Or.inl h
        · rw [e] at h
          rcases List.mem_append.mp h with h' | h'
          · exact Or.inl h'
          · simp at h'; subst h'; simp
      · simp [h]
    · intro hx
      rw [List.foldl_cons] at hx
      have step2 : (splitStep excl (p, q) m).2 = q ∨ (splitStep excl (p, q) m).2 = q ++ [m] := by
        unfold splitStep; split
        · left; rfl
        · split
          · right; rfl
          · left; rfl
      have := (ih (splitStep excl (p, q) m).1 (splitStep excl (p, q) m).2 x).2
      rw [show ((splitStep excl (p, q) m).1, (splitStep excl (p, q) m).2) =
          splitStep excl (p, q) m from rfl] at this
      rcases this hx with h | h
      · rcases step2 with e | e
        · rw [e] at h; exact Or.inl h
        · rw [e] at h
          rcases List.mem_append.mp h with h' | h'
          · exact Or.inl h'
          · simp at h'; subst h'; simp
      · simp [h]

/-- Claim C8: for every possible raw match list of the method regex and
either setting of the private-method toggle, no method named `equals`,
`hashCode` or `toString` appears in the testable collections — the
`'methods'` and `'private_methods'` lists of `analyze_java_code`'s
result. -/
theorem no_object_methods_in_testable_set (raw : List RawMethod)
    (exclude_private_methods : Bool) :
    (∀ m ∈ analyze_methods raw exclude_private_methods,
       m.name ∉ (["equals", "hashCode", "toString"] : List String)) ∧
    (∀ m ∈ analyze_private_methods raw exclude_private_methods,
       m.name ∉ (["equals", "hashCode", "toString"] : List String)) := by
  constructor
  · intro m hm
    have := (mem_splitStep_fold exclude_private_methods
      (build_detailed_methods raw) [] [] m).1 hm
    rcases this with h | h
    · simp at h
    · exact mem_build_detailed_methods_name h
  · intro m hm
    have := (mem_splitStep_fold exclude_private_methods
      (build_detailed_methods raw) [] [] m).2 hm
    rcases this with h | h
    · simp at h
    · exact mem_build_detailed_methods_name h

/-- Witness for `no_object_methods_in_testable_set` at a concrete raw
match list containing an `equals` and a `toString` entry. -/
theorem no_object_methods_in_testable_set_witness :
    ∀ m ∈ analyze_methods
      [⟨"public", "boolean", "equals", "Object o"⟩,
       ⟨"public", "String", "toString", ""⟩,
       ⟨"public", "int", "size", ""⟩] false,
      m.name ∉ (["equals", "hashCode", "toString"] : List String) :=
  (no_object_methods_in_testable_set
    [⟨"public", "boolean", "equals", "Object o"⟩,
     ⟨"public", "String", "toString", ""⟩,
     ⟨"public", "int", "size", ""⟩] false).1

/-! ### Claims C7 and C9 — per-unit skipping -/

lemma process_units_append {ρ : Type} (gen : List DetailedMethod → ρ)
    (pre post : List AnalysisResult) (u : AnalysisResult)
    (hskip : ∀ r : ρ, processUnit gen u ≠ .generated r) :
    process_units gen (pre ++ u :: post) = process_units gen (pre ++ post) := by
  unfold process_units
  rw [List.foldl_append, List.foldl_append, List.foldl_cons]
  cases h : processUnit gen u with
  | generated r => exact absurd h (hskip r)
  | skippedError m => simp [h]
  | skippedNoMethods => simp [h]

/-- Claim C7: for every source unit whose analysis yields an empty
extractable-method list, the pipeline declines to proceed — whatever
the generation function is, the loop body's outcome is the
no-methods skip (so the opaque generation call is never applied), and
the unit contributes nothing to the batch's `generated_tests`. -/
theorem empty_method_list_skips_generation {ρ : Type}
    (gen : List DetailedMethod → ρ) (methods : List DetailedMethod)
    (hempty : methods = []) (pre post : List AnalysisResult) :
    processUnit gen (.ok methods) = .skippedNoMethods ∧
    process_units gen (pre ++ .ok methods :: post) = process_units gen (pre ++ post) := by
  subst hempty
  constructor
  · rfl
  · exact process_units_append gen pre post (.ok []) (fun r => by simp [processUnit])

/-- Witness for `empty_method_list_skips_generation`: a unit with no
methods between two nonempty units contributes nothing. -/
theorem empty_method_list_skips_generation_witness :
    processUnit (fun ms => ms.length) (.ok []) = .skippedNoMethods ∧
    process_units (fun ms => ms.length) [.ok [], .err "x"] = process_units (fun ms => ms.length) [.err "x"] :=
  empty_method_list_skips_generation (fun ms => ms.length) [] rfl [] [.err "x"]

/-- Claim C9: `analyze_java_code` never propagates an internal
extraction error: whatever the body's outcome, the wrapper returns a
structured value, a raised exception `e` becomes the error dictionary
with message `"Error analyzing Java code: " + e`, and the batch caller
treats an error analysis by skipping that unit and continuing with the
remaining units unchanged. -/
theorem analyze_java_code_error_is_structured
    (body : Except String (List DetailedMethod)) (e : String) {ρ : Type}
    (gen : List DetailedMethod → ρ) (pre post : List AnalysisResult) :
    ((∃ methods, analyze_java_code_wrapper body = .ok methods) ∨
     (∃ msg, analyze_java_code_wrapper body = .err msg)) ∧
    analyze_java_code_wrapper (.error e) = .err ("Error analyzing Java code: " ++ e) ∧
    process_units gen (pre ++ analyze_java_code_wrapper (.error e) :: post) =
      process_units gen (pre ++ post) := by
  refine ⟨?_, rfl, ?_⟩
  · cases body with
    | ok methods => exact Or.inl ⟨methods, rfl⟩
    | error msg => exact Or.inr ⟨"Error analyzing Java code: " ++ msg, rfl⟩
  · exact process_units_append gen pre post _ (fun r => by simp [analyze_java_code_wrapper, processUnit])

/-- Witness for `analyze_java_code_error_is_structured` at a concrete
failing body and batch. -/
theorem analyze_java_code_error_is_structured_witness :
    analyze_java_code_wrapper (Except.error "bad regex") =
      AnalysisResult.err "Error analyzing Java code: bad regex" ∧
    process_units (fun ms => ms.length)
        [analyze_java_code_wrapper (Except.error "bad regex"),
         .ok [⟨"public", "int", "f", "", [], "public int f()", false, false, false⟩]] =
      process_units (fun ms => ms.length)
        [.ok [⟨"public", "int", "f", "", [], "public int f()", false, false, false⟩]] := by
  have h := analyze_java_code_error_is_structured (Except.error "bad regex") "bad regex"
    (fun ms => ms.length) []
    [.ok [⟨"public", "int", "f", "", [], "public int f()", false, false, false⟩]]
  exact ⟨h.2.1, h.2.2⟩

/-! ### Claims C3 and C4 — coverage reconciliation -/

lemma toList_mk (l : List Char) : (String.mk l).toList = l := rfl

lemma toList_str_append (a b : String) : (a ++ b).toList = a.toList ++ b.toList := rfl

lemma pyLen_pyLower (s : String) : pyLen (pyLower s) = pyLen s := by
  unfold pyLen pyLower
  rw [toList_mk, List.length_map]

lemma pyDrop_test_append (s : String) : pyDrop ("test" ++ s) 4 = s := by
  unfold pyDrop
  rw [toList_str_append]
  show String.mk ((['t', 'e', 's', 't'] ++ s.toList).drop 4) = s
  rfl

lemma pyStartsWith_test_append (s : String) : pyStartsWith ("test" ++ s) "test" = true := by
  unfold pyStartsWith
  rw [toList_str_append]
  show List.isPrefixOf ['t', 'e', 's', 't'] (['t', 'e', 's', 't'] ++ s.toList) = true
  simp [List.isPrefixOf]

lemma mem_buildVariations_drop {l : List String} {t : String} (ht : t ∈ l)
    (hstart : pyStartsWith (pyLower t) "test" = true) :
    pyDrop (pyLower t) 4 ∈ buildVariations l := by
  induction l with
  | nil => simp at ht
  | cons u rest ih =>
    rcases List.mem_cons.mp ht with h | h
    · subst h
      simp only [buildVariations, List.foldr_cons]
      rw [hstart]
      simp only [if_true, List.mem_cons, List.mem_append, List.mem_singleton]
      right
      left
      left
      simp
    · have := ih h
      simp only [buildVariations, List.foldr_cons] at this ⊢
      simp only [List.mem_cons, List.mem_append] at this ⊢
      tauto

lemma coverageMatch_self {name : String} (h : 3 ≤ pyLen name) :
    coverageMatch name name = true := by
  unfold coverageMatch
  have h1 : ¬ (pyLen name < 3) := by omega
  simp [h1]

/-- Claim C3 (amended): for every candidate method `m` whose name has at
least 3 characters and every existing test-method name `t` equal
(case-insensitively) to `"test" + m` among the names extracted from the
existing artifacts, `get_uncovered_methods` marks `m` covered: `m` does
not appear in the returned uncovered list.  (The amendment restricts
the claim to names of length ≥ 3; the counterexample below shows the
guard of core.py:2396 leaves shorter names uncovered.) -/
theorem test_prefixed_name_marks_covered (class_methods : List DetailedMethod)
    (existing_test_files : List (List String)) (m : DetailedMethod) (t : String)
    (h3 : 3 ≤ pyLen m.name)
    (ht : t ∈ existing_test_files.flatten)
    (heq : pyLower t = "test" ++ pyLower m.name) :
    m ∉ get_uncovered_methods class_methods existing_test_files := by
  intro hmem
  have hne : existing_test_files.isEmpty = false := by
    cases existing_test_files with
    | nil => simp at ht
    | cons f fs => rfl
  unfold get_uncovered_methods at hmem
  rw [hne] at hmem
  simp only [Bool.false_eq_true, if_false] at hmem
  have hpred := (List.mem_filter.mp hmem).2
  have hstart : pyStartsWith (pyLower t) "test" = true := by
    rw [heq]; exact pyStartsWith_test_append _
  have hv := mem_buildVariations_drop ht hstart
  rw [heq, pyDrop_test_append] at hv
  have hcov : isCovered (pyLower m.name) (buildVariations existing_test_files.flatten) = true := by
    unfold isCovered
    rw [List.any_eq_true]
    refine ⟨pyLower m.name, hv, coverageMatch_self ?_⟩
    rw [pyLen_pyLower]
    exact h3
  rw [hcov] at hpred
  simp at hpred

/-- Witness for `test_prefixed_name_marks_covered`: `create` with an
existing `testCreate` is not in the uncovered list. -/
theorem test_prefixed_name_marks_covered_witness :
    (⟨"public", "void", "create", "", [], "public void create()", false, false, false⟩ :
        DetailedMethod) ∉
      get_uncovered_methods
        [⟨"public", "void", "create", "", [], "public void create()", false, false, false⟩]
        [["testCreate"]] :=
  test_prefixed_name_marks_covered
    [⟨"public", "void", "create", "", [], "public void create()", false, false, false⟩]
    [["testCreate"]]
    ⟨"public", "void", "create", "", [], "public void create()", false, false, false⟩
    "testCreate" (by decide) (by decide) (by decide)

/-- Counterexample to claim C3 as stated: the candidate method `go`
(2 characters) with the existing test-method name `testGo` — which is
exactly `"test" + m` case-insensitively — is still reported uncovered,
because the guard of core.py:2396 skips every comparison (including the
exact one) when the candidate name is shorter than 3 characters. -/
theorem test_prefixed_short_name_counterexample :
    pyLower "testGo" = "test" ++ pyLower "go" ∧
    "testGo" ∈ ([["testGo"]] : List (List String)).flatten ∧
    (⟨"public", "void", "go", "", [], "public void go()", false, false, false⟩ :
        DetailedMethod) ∈
      get_uncovered_methods
        [⟨"public", "void", "go", "", [], "public void go()", false, false, false⟩]
        [["testGo"]] := by
  refine ⟨by decide, by decide, by decide⟩

lemma coverageMatch_short_false {name : String} (hshort : pyLen name < 3) (v : String) :
    coverageMatch name v = false := by
  unfold coverageMatch
  simp [hshort]

/-- Claim C4 (amended): for every candidate method whose name is shorter
than 3 characters, the coverage reconciliation produces no match of any
kind — neither containment-based (substring or fuzzy) nor exact-equality
— so the method is always reported uncovered.  (The original claim's
"only exact-equality matching applies" fails: the guard of
core.py:2396 `continue`s before the exact comparison as well, as the
counterexample below shows.) -/
theorem short_method_names_never_matched (class_methods : List DetailedMethod)
    (existing_test_files : List (List String)) (m : DetailedMethod)
    (hmem : m ∈ class_methods) (hshort : pyLen m.name < 3) :
    (∀ v, coverageMatch (pyLower m.name) v = false) ∧
    m ∈ get_uncovered_methods class_methods existing_test_files := by
  have hlow : pyLen (pyLower m.name) < 3 := by rw [pyLen_pyLower]; exact hshort
  refine ⟨fun v => coverageMatch_short_false hlow v, ?_⟩
  unfold get_uncovered_methods
  cases he : existing_test_files.isEmpty with
  | true => simpa using hmem
  | false =>
    simp only [Bool.false_eq_true, if_false]
    refine List.mem_filter.mpr ⟨hmem, ?_⟩
    have : isCovered (pyLower m.name)
        (buildVariations existing_test_files.flatten) = false := by
      unfold isCovered
      rw [List.any_eq_false]
      intro v _
      simp [coverageMatch_short_false hlow v]
    rw [this]
    rfl

/-- Witness for `short_method_names_never_matched` at the method `ab`
and an artifact containing `testAb`. -/
theorem short_method_names_never_matched_witness :
    (⟨"public", "void", "ab", "", [], "public void ab()", false, false, false⟩ :
        DetailedMethod) ∈
      get_uncovered_methods
        [⟨"public", "void", "ab", "", [], "public void ab()", false, false, false⟩]
        [["testAb"]] :=
  (short_method_names_never_matched
    [⟨"public", "void", "ab", "", [], "public void ab()", false, false, false⟩]
    [["testAb"]]
    ⟨"public", "void", "ab", "", [], "public void ab()", false, false, false⟩
    (by decide) (by decide)).2

/-- Counterexample to claim C4 as stated: for the 2-character method
`ab`, the extracted variation set contains the exact lowercase name
`ab` (from `testAb`), yet the method is reported uncovered — so
exact-equality matching does *not* apply to short names either; no
matching applies at all. -/
theorem short_name_exact_match_counterexample :
    pyLower "ab" ∈ buildVariations ([["testAb"]] : List (List String)).flatten ∧
    (⟨"public", "void", "ab", "", [], "public void ab()", false, false, false⟩ :
        DetailedMethod) ∈
      get_uncovered_methods
        [⟨"public", "void", "ab", "", [], "public void ab()", false, false, false⟩]
        [["testAb"]] := by
  refine ⟨by decide, by decide⟩

/-! ### Claims C5 and C6 — import suppression and rule detection -/

/-- Claim C5 (amended): for every source unit, when a pattern-detected
import's simple class name equals the simple name of a class imported
from the unit's own package (an application-local symbol, tracked in
`application_classes`), that import is suppressed from the *filtered
detected-import list*.  (The original claim also asserted absence from
the combined `all_test_imports`; the counterexample below shows the
conflicting import re-enters that set through the unfiltered
contextual-import list.) -/
theorem conflicting_detected_import_suppressed (java_code : String) (imp : String)
    (happ : simpleClassName imp ∈ (analyze_java_imports java_code).application_classes) :
    imp ∉ (analyze_java_imports java_code).filtered_detected_imports := by
  intro hmem
  have hfil :
      (analyze_java_imports java_code).filtered_detected_imports =
        (analyze_java_imports java_code).detected_imports.filter
          (fun d =>
            !((analyze_java_imports java_code).application_classes.contains
              (simpleClassName d))) := rfl
  rw [hfil] at hmem
  have hpred := (List.mem_filter.mp hmem).2
  have : (analyze_java_imports java_code).application_classes.contains
      (simpleClassName imp) = true := by
    exact List.elem_eq_true_of_mem happ
  rw [this] at hpred
  simp at hpred

/-- A minimal source unit exhibiting the conflict: the unit's package is
`com.app`, it imports the application-local `com.app.HttpHeaders`, and
its body declares `HttpHeaders h`, which fires the Spring rule's
`HttpHeaders\s+\w+` pattern. -/
def widgetCode : String :=
  "package com.app;\nimport com.app.HttpHeaders;\npublic class Widget \x7b void f() \x7b HttpHeaders h; \x7d \x7d"

/-- Witness for `conflicting_detected_import_suppressed` at
`widgetCode`: the suggested `org.springframework.http.HttpHeaders`
conflicts with the application-local `HttpHeaders` and is absent from
the filtered detected-import list. -/
theorem conflicting_detected_import_suppressed_witness :
    "org.springframework.http.HttpHeaders" ∉
      (analyze_java_imports widgetCode).filtered_detected_imports :=
  conflicting_detected_import_suppressed widgetCode
    "org.springframework.http.HttpHeaders" (by decide)

/-- Counterexample to claim C5 as stated: for `widgetCode`, the
pattern-detected `org.springframework.http.HttpHeaders` collides with
the application-local class `HttpHeaders`, yet it *does* appear in the
combined test-import set `all_test_imports`, because
`get_contextual_imports` re-includes every pattern-detected import and
the combination of core.py:831 applies no conflict filter to it. -/
theorem conflicting_import_in_all_test_imports_counterexample :
    "org.springframework.http.HttpHeaders" ∈
      (analyze_java_imports widgetCode).detected_imports ∧
    simpleClassName "org.springframework.http.HttpHeaders" ∈
      (analyze_java_imports widgetCode).application_classes ∧
    "org.springframework.http.HttpHeaders" ∈
      (analyze_java_imports widgetCode).all_test_imports := by
  refine ⟨by decide, by decide, by decide⟩

/-- Claim C6: on the input `.stream().collect(Collectors.toList())`,
`detect_imports` returns a set that includes every import of the
Stream/Collectors (collections-category) rule and no import of the
servlet-category rule. -/
theorem stream_collect_detection :
    (∀ imp ∈ streamCollectionsRule.imports,
       imp ∈ detect_imports ".stream().collect(Collectors.toList())") ∧
    (∀ imp ∈ servletRule.imports,
       imp ∉ detect_imports ".stream().collect(Collectors.toList())") := by
  refine ⟨by decide, by decide⟩

/-- Witness for `stream_collect_detection` at two concrete imports. -/
theorem stream_collect_detection_witness :
    "java.util.stream.Collectors" ∈
      detect_imports ".stream().collect(Collectors.toList())" ∧
    "jakarta.servlet.http.HttpServletRequest" ∉
      detect_imports ".stream().collect(Collectors.toList())" :=
  ⟨stream_collect_detection.1 "java.util.stream.Collectors" (by decide),
   stream_collect_detection.2 "jakarta.servlet.http.HttpServletRequest" (by decide)⟩

/-! ### Claim C1 — the validate-fix loop -/

lemma bestStep_total_le_left (b r : IterationRecord) :
    (bestStep b r).total_issues ≤ b.total_issues := by
  unfold bestStep
  split
  · omega
  · exact le_refl _

lemma bestStep_total_le_right (b r : IterationRecord) :
    (bestStep b r).total_issues ≤ r.total_issues := by
  unfold bestStep
  split
  · exact le_refl _
  · omega

lemma bestStep_eq_or (b r : IterationRecord) : bestStep b r = b ∨ bestStep b r = r := by
  unfold bestStep
  split
  · exact Or.inr rfl
  · exact Or.inl rfl

lemma selectBest_total_le_start :
    ∀ (l : List IterationRecord) (b : IterationRecord),
      (selectBest b l).total_issues ≤ b.total_issues := by
  intro l
  induction l with
  | nil => intro b; exact le_refl _
  | cons a rs ih =>
    intro b
    calc (selectBest (bestStep b a) rs).total_issues
        ≤ (bestStep b a).total_issues := ih (bestStep b a)
      _ ≤ b.total_issues := bestStep_total_le_left b a

lemma selectBest_total_le_mem :
    ∀ (l : List IterationRecord) (b r : IterationRecord), r ∈ l →
      (selectBest b l).total_issues ≤ r.total_issues := by
  intro l
  induction l with
  | nil => intro b r hr; simp at hr
  | cons a rs ih =>
    intro b r hr
    rcases List.mem_cons.mp hr with h | h
    · subst h
      calc (selectBest (bestStep b r) rs).total_issues
          ≤ (bestStep b r).total_issues := selectBest_total_le_start rs _
        _ ≤ r.total_issues := bestStep_total_le_right b r
    · exact ih (bestStep b a) r h

lemma selectBest_mem :
    ∀ (l : List IterationRecord) (b : IterationRecord), selectBest b l ∈ b :: l := by
  intro l
  induction l with
  | nil => intro b; simp [selectBest]
  | cons a rs ih =>
    intro b
    have h := ih (bestStep b a)
    rcases List.mem_cons.mp h with h' | h'
    · rcases bestStep_eq_or b a with e | e
      · exact List.mem_cons.mpr (Or.inl (h'.trans e))
      · exact List.mem_cons.mpr (Or.inr (List.mem_cons.mpr (Or.inl (h'.trans e))))
    · exact List.mem_cons.mpr (Or.inr (List.mem_cons.mpr (Or.inr h')))

lemma selectBest_earliest :
    ∀ (l : List IterationRecord) (b : IterationRecord),
      (b :: l).Pairwise (fun x y => x.iteration_number < y.iteration_number) →
      ∀ r ∈ b :: l, r.total_issues = (selectBest b l).total_issues →
        (selectBest b l).iteration_number ≤ r.iteration_number := by
  intro l
  induction l with
  | nil =>
    intro b _ r hr htot
    rcases List.mem_cons.mp hr with h | h
    · subst h; exact le_refl _
    · simp at h
  | cons a rs ih =>
    intro b hpw r hr htot
    have hpw' := List.pairwise_cons.mp hpw
    have hba : b.iteration_number < a.iteration_number :=
      hpw'.1 a (List.mem_cons_self a rs)
    have hpwtail := hpw'.2
    have hpwtail' := List.pairwise_cons.mp hpwtail
    have hstep_pw : ((bestStep b a) :: rs).Pairwise
        (fun x y => x.iteration_number < y.iteration_number) := by
      refine List.pairwise_cons.mpr ⟨?_, hpwtail'.2⟩
      intro x hx
      rcases bestStep_eq_or b a with e | e
      · rw [e]
        exact Nat.lt_trans hba (hpwtail'.1 x hx)
      · rw [e]
        exact hpwtail'.1 x hx
    have hsel : selectBest b (a :: rs) = selectBest (bestStep b a) rs := rfl
    rw [hsel] at htot ⊢
    rcases List.mem_cons.mp hr with h | h
    · -- r = b
      subst h
      by_cases hlt : a.total_issues < r.total_issues
      · -- bestStep = a; best.total ≤ a.total < b.total = best.total: impossible
        have e : bestStep r a = a := by unfold bestStep; rw [if_pos hlt]
        have hle : (selectBest (bestStep r a) rs).total_issues ≤ a.total_issues := by
          rw [e]; exact selectBest_total_le_start rs a
        omega
      · have e : bestStep r a = r := by unfold bestStep; rw [if_neg hlt]
        have := ih (bestStep r a) hstep_pw r (by rw [e]; exact List.mem_cons_self _ _) htot
        exact this
    · rcases List.mem_cons.mp h with h' | h'
      · -- r = a
        subst h'
        by_cases hlt : r.total_issues < b.total_issues
        · have e : bestStep b r = r := by unfold bestStep; rw [if_pos hlt]
          exact ih (bestStep b r) hstep_pw r (by rw [e]; exact List.mem_cons_self _ _) htot
        · -- bestStep = b, and totals b = r = best
          have e : bestStep b r = b := by unfold bestStep; rw [if_neg hlt]
          have hle : (selectBest (bestStep b r) rs).total_issues ≤ b.total_issues := by
            rw [e]; exact selectBest_total_le_start rs b
          have hbtot : b.total_issues = (selectBest (bestStep b r) rs).total_issues := by
            omega
          have hb := ih (bestStep b r) hstep_pw b (by rw [e]; exact List.mem_cons_self _ _) hbtot
          exact Nat.le_trans hb (Nat.le_of_lt hba)
      · exact ih (bestStep b a) hstep_pw r (List.mem_cons.mpr (Or.inr h')) htot

lemma completedRecords_iter_lb :
    ∀ (fuel iter : Nat) (vr : ValidationResult) (oracle : List LlmStep),
      ∀ r ∈ completedRecords fuel iter vr oracle, iter ≤ r.iteration_number := by
  intro fuel
  induction fuel with
  | zero => intro iter vr oracle r hr; simp [completedRecords] at hr
  | succ n ih =>
    intro iter vr oracle r hr
    cases oracle with
    | nil => simp [completedRecords] at hr
    | cons step rest =>
      simp only [completedRecords] at hr
      by_cases h : hasIssues vr = true
      · rw [if_pos h] at hr
        cases step with
        | none => simp at hr
        | some p =>
          obtain ⟨code', vr'⟩ := p
          simp only at hr
          by_cases hstop : (vr'.validation_status == "PASS" || majorsClear vr') = true
          · rw [if_pos hstop] at hr
            simp at hr
            rw [hr]
          · rw [if_neg hstop] at hr
            rcases List.mem_cons.mp hr with h' | h'
            · rw [h']
            · exact Nat.le_of_lt (Nat.lt_of_lt_of_le (Nat.lt_succ_self iter)
                (ih (iter + 1) vr' rest r h'))
      · rw [if_neg h] at hr
        simp at hr

lemma completedRecords_pairwise :
    ∀ (fuel iter : Nat) (vr : ValidationResult) (oracle : List LlmStep),
      (completedRecords fuel iter vr oracle).Pairwise
        (fun x y => x.iteration_number < y.iteration_number) := by
  intro fuel
  induction fuel with
  | zero => intro iter vr oracle; simp [completedRecords]
  | succ n ih =>
    intro iter vr oracle
    cases oracle with
    | nil => simp [completedRecords]
    | cons step rest =>
      simp only [completedRecords]
      by_cases h : hasIssues vr = true
      · rw [if_pos h]
        cases step with
        | none => simp
        | some p =>
          obtain ⟨code', vr'⟩ := p
          simp only
          by_cases hstop : (vr'.validation_status == "PASS" || majorsClear vr') = true
          · rw [if_pos hstop]
            simp
          · rw [if_neg hstop]
            refine List.pairwise_cons.mpr ⟨?_, ih (iter + 1) vr' rest⟩
            intro x hx
            exact Nat.lt_of_lt_of_le (Nat.lt_succ_self iter)
              (completedRecords_iter_lb n (iter + 1) vr' rest x hx)
      · rw [if_neg h]
        simp

lemma autoFixLoop_eq_selectBest :
    ∀ (fuel iter : Nat) (vr : ValidationResult) (best : IterationRecord)
      (oracle : List LlmStep),
      autoFixLoop fuel iter vr best oracle =
        selectBest best (completedRecords fuel iter vr oracle) := by
  intro fuel
  induction fuel with
  | zero => intro iter vr best oracle; simp [autoFixLoop, completedRecords, selectBest]
  | succ n ih =>
    intro iter vr best oracle
    cases oracle with
    | nil => simp [autoFixLoop, completedRecords, selectBest]
    | cons step rest =>
      simp only [autoFixLoop, completedRecords]
      by_cases h : hasIssues vr = true
      · rw [if_pos h, if_pos h]
        cases step with
        | none => simp [selectBest]
        | some p =>
          obtain ⟨code', vr'⟩ := p
          simp only
          by_cases hstop : (vr'.validation_status == "PASS" || majorsClear vr') = true
          · rw [if_pos hstop, if_pos hstop]
            simp [selectBest]
          · rw [if_neg hstop, if_neg hstop]
            rw [ih]
            rfl
      · rw [if_neg h, if_neg h]
        simp [selectBest]

/-- Claim C1: for every initial validation report and every sequence of
repair-iteration outcomes, `auto_fix_validation_issues_with_llm`
returns the code of the record selected by folding the
strict-improvement step over iteration 0 (the unmodified input) and all
completed iterations; that record's weighted issue score
(`10·critical + 8·compilation + 5·missing + 1·unused`) is ≤ the initial
input's score and ≤ every completed iteration's score; the record is
one of those iterations; and on score ties it is the earliest such
iteration — so a later iteration whose score is worse than or equal to
the recorded best never replaces it. -/
theorem auto_fix_returns_best_iteration (java_code : String)
    (validation_result : ValidationResult) (max_iterations : Nat)
    (oracle : List LlmStep) :
    auto_fix_validation_issues_with_llm java_code validation_result max_iterations oracle =
      (selectBest (initRecord java_code validation_result)
        (completedRecords max_iterations 1 validation_result oracle)).code ∧
    (selectBest (initRecord java_code validation_result)
        (completedRecords max_iterations 1 validation_result oracle)).total_issues ≤
      calculate_total_issues validation_result ∧
    (∀ r ∈ completedRecords max_iterations 1 validation_result oracle,
       (selectBest (initRecord java_code validation_result)
         (completedRecords max_iterations 1 validation_result oracle)).total_issues ≤
       r.total_issues) ∧
    (selectBest (initRecord java_code validation_result)
        (completedRecords max_iterations 1 validation_result oracle)) ∈
      initRecord java_code validation_result ::
        completedRecords max_iterations 1 validation_result oracle ∧
    (∀ r ∈ initRecord java_code validation_result ::
        completedRecords max_iterations 1 validation_result oracle,
       r.total_issues =
         (selectBest (initRecord java_code validation_result)
           (completedRecords max_iterations 1 validation_result oracle)).total_issues →
       (selectBest (initRecord java_code validation_result)
         (completedRecords max_iterations 1 validation_result oracle)).iteration_number ≤
       r.iteration_number) := by
  refine ⟨?_, ?_, ?_, ?_, ?_⟩
  · have hdef : auto_fix_validation_issues_with_llm java_code validation_result
        max_iterations oracle =
        (autoFixLoop max_iterations 1 validation_result
          (initRecord java_code validation_result) oracle).code := rfl
    rw [hdef, autoFixLoop_eq_selectBest]
  · exact selectBest_total_le_start _ _
  · intro r hr
    exact selectBest_total_le_mem _ _ r hr
  · exact selectBest_mem _ _
  · have hpw : (initRecord java_code validation_result ::
        completedRecords max_iterations 1 validation_result oracle).Pairwise
        (fun x y => x.iteration_number < y.iteration_number) := by
      refine List.pairwise_cons.mpr
        ⟨?_, completedRecords_pairwise max_iterations 1 validation_result oracle⟩
      intro x hx
      have h1 := completedRecords_iter_lb max_iterations 1 validation_result oracle x hx
      have h0 : (initRecord java_code validation_result).iteration_number = 0 := rfl
      omega
    exact selectBest_earliest _ _ hpw

/-- Witness for `auto_fix_returns_best_iteration`: a failing report
(score 10) repaired in one iteration to a passing report (score 0)
returns the repaired code, which is the fold's selection. -/
theorem auto_fix_returns_best_iteration_witness :
    auto_fix_validation_issues_with_llm "c0"
        ⟨"FAIL", ["missing assertion"], [], [], []⟩ 3
        [some ("c1", ⟨"PASS", [], [], [], []⟩)] = "c1" := by
  have h := auto_fix_returns_best_iteration "c0"
    ⟨"FAIL", ["missing assertion"], [], [], []⟩ 3
    [some ("c1", ⟨"PASS", [], [], [], []⟩)]
  rw [h.1]
  decide
